import Mathlib

set_option linter.unusedVariables false

/-! # Shallow embedding of the sales-bonus module (`src/main.js`)

Numbers are modelled as exact rationals (`ℚ`).  A JavaScript value that may
fail the `typeof x === "number"` check is modelled by `JSVal`; a JavaScript
numeric expression whose value may be `NaN` is modelled by `JSNum := Option ℚ`
with `none` playing the role of `NaN` (`NaN` propagates through `+`, `-`, `*`;
finite non-rational doubles, `NaN` and `Infinity` *inputs* are outside the
model).  `Number(x.toFixed(2))` is modelled by rounding half away from zero at
the second decimal.  `Array.prototype.sort` (stable per ECMAScript) is
modelled by a stable insertion sort, which agrees with every stable sort
whenever the comparator is consistent (in particular on NaN-free data).
JavaScript objects used as maps (`products_sold`, and the `sellerIndex` /
`productIndex` built with `Object.fromEntries`, where a duplicate key is
overwritten, i.e. the last entry wins) are modelled by association lists in
insertion order. -/

inductive JSVal where
  | num (q : ℚ)
  | other
deriving DecidableEq

abbrev JSNum := Option ℚ

def jadd : JSNum → JSNum → JSNum
  | some x, some y => some (x + y)
  | _, _ => none

def jsub : JSNum → JSNum → JSNum
  | some x, some y => some (x - y)
  | _, _ => none

def jmul : JSNum → JSNum → JSNum
  | some x, some y => some (x * y)
  | _, _ => none

/-- Rounding half away from zero to an integer (the semantics of
`Number(x.toFixed(n))` on exact decimal ties). -/
def roundHalfAway (x : ℚ) : ℤ :=
  if 0 ≤ x then ⌊x + 1/2⌋ else -⌊-x + 1/2⌋

/-- Model of `Number(x.toFixed(2))`: round to two decimal places. -/
def toFixed2 (x : ℚ) : ℚ :=
  (roundHalfAway (x * 100) : ℚ) / 100

/-- Lift of `Number(x.toFixed(2))` to possibly-NaN values
(`Number(NaN.toFixed(2))` is `NaN`). -/
def jsToFixed2 : JSNum → JSNum :=
  Option.map toFixed2

structure Seller where
  id : String
  first_name : String
  last_name : String
deriving DecidableEq

structure Product where
  sku : String
  purchase_price : ℚ
deriving DecidableEq

structure Item where
  sku : String
  sale_price : JSVal
  quantity : JSVal
  discount : JSVal
deriving DecidableEq

structure PRecord where
  seller_id : String
  items : List Item
deriving DecidableEq

/-- The per-seller accumulator object created in step 3 of `analyzeSalesData`. -/
structure SellerStat where
  id : String
  name : String
  revenue : JSNum
  profit : JSNum
  sales_count : ℕ
  products_sold : List (String × JSNum)
deriving DecidableEq

structure TopEntry where
  sku : String
  quantity : JSNum
deriving DecidableEq

structure Row where
  seller_id : String
  name : String
  revenue : JSNum
  profit : JSNum
  sales_count : ℕ
  top_products : List TopEntry
  bonus : JSNum
deriving DecidableEq

/-- The `data` argument: each collection is `none` when the corresponding
field is not an array (missing, or of the wrong type). -/
structure RawData where
  sellers : Option (List Seller)
  products : Option (List Product)
  purchase_records : Option (List PRecord)

/-- The `options` argument: a policy field is `none` when it is not a
function. -/
structure RawOptions where
  calculateRevenue : Option (Item → Product → JSNum)
  calculateBonus : Option (ℤ → ℤ → SellerStat → JSNum)

/-- Function `calculateSimpleRevenue` from `src/main.js`: fail-soft on non-numeric
fields, otherwise `sale_price * quantity * (1 - discount/100)` rounded by
`Number(revenue.toFixed(2))`. -/
def calculateSimpleRevenue (purchase : Item) (_product : Product) : ℚ :=
  match purchase.sale_price, purchase.quantity, purchase.discount with
  | .num sale_price, .num quantity, .num discount =>
      toFixed2 (sale_price * quantity * (1 - discount / 100))
  | _, _, _ => 0

/-- Function `calculateBonusByProfit` from `src/main.js`: guard on `total <= 0` and
`index` out of `[0, total)`, then select a rate by the if-else chain and
return `seller.profit * rate`. -/
def calculateBonusByProfit (index : ℤ) (total : ℤ) (seller : SellerStat) : JSNum :=
  if total ≤ 0 ∨ index < 0 ∨ total ≤ index then
    some 0
  else
    jmul seller.profit
      (some (if index = 0 then 15/100
             else if index = 1 ∨ index = 2 then 1/10
             else if index = total - 1 then 0
             else 1/20))

/-- Lookup `productIndex[sku]`: `Object.fromEntries` keeps the last entry for a
duplicated key. -/
def lookupLastSku (ps : List Product) (sku : String) : Option Product :=
  ps.reverse.find? (fun p => p.sku == sku)

/-- Index of the last element of `ids` equal to `sid`
(`sellerIndex[seller_id]` resolves to the last stat with that id). -/
def lastIdxOfIds : List String → String → Option ℕ
  | [], _ => none
  | i :: rest, sid =>
    match lastIdxOfIds rest sid with
    | some k => some (k + 1)
    | none => if i == sid then some 0 else none

def jsvalNum : JSVal → JSNum
  | .num q => some q
  | .other => none

/-- Update `products_sold[sku] = (products_sold[sku] || 0) + quantity`
(`undefined`, `0` and `NaN` are all falsy, hence the `getD 0`). -/
def psAdd : List (String × JSNum) → String → JSVal → List (String × JSNum)
  | [], sku, qty => [(sku, jadd (some 0) (jsvalNum qty))]
  | (s, v) :: rest, sku, qty =>
    if s == sku then (s, jadd (some (v.getD 0)) (jsvalNum qty)) :: rest
    else (s, v) :: psAdd rest sku qty

/-- The local `rawRevenue` of the item loop: the unrounded revenue of an
item, `0` when any of the three fields is non-numeric. -/
def rawRevenue (item : Item) : ℚ :=
  match item.sale_price, item.quantity, item.discount with
  | .num sale_price, .num quantity, .num discount =>
      sale_price * quantity * (1 - discount / 100)
  | _, _, _ => 0

/-- The local `rawCost` of the item loop:
`product.purchase_price * item.quantity` (`NaN` when the quantity is not
numeric). -/
def rawCost (product : Product) (item : Item) : JSNum :=
  match item.quantity with
  | .num q => some (product.purchase_price * q)
  | .other => none

/-- Body of the inner `record.items.forEach` loop of `analyzeSalesData`:
skip the item when its sku is unknown; otherwise accumulate the policy
revenue (`displayRevenue`) into `revenue`, the *raw* (unrounded,
policy-independent) revenue minus the raw cost into `profit`, and the
quantity into `products_sold`. -/
def processItem (ps : List Product) (calcRev : Item → Product → JSNum)
    (st : SellerStat) (item : Item) : SellerStat :=
  match lookupLastSku ps item.sku with
  | none => st
  | some product =>
    { st with
      revenue := jadd st.revenue (calcRev item product)
      profit := jadd st.profit (jsub (some (rawRevenue item)) (rawCost product item))
      products_sold := psAdd st.products_sold item.sku item.quantity }

/-- Processing of one purchase record for its (found) seller:
`sales_count += 1`, then the item loop. -/
def bumpRecord (ps : List Product) (calcRev : Item → Product → JSNum)
    (st : SellerStat) (r : PRecord) : SellerStat :=
  r.items.foldl (processItem ps calcRev) { st with sales_count := st.sales_count + 1 }

/-- Body of the outer `data.purchase_records.forEach` loop: skip the record
when its seller is unknown, otherwise update that seller's stat in place. -/
def processRecord (ps : List Product) (calcRev : Item → Product → JSNum)
    (stats : List SellerStat) (r : PRecord) : List SellerStat :=
  match lastIdxOfIds (stats.map (fun s => s.id)) r.seller_id with
  | none => stats
  | some i =>
    match stats.get? i with
    | none => stats
    | some st => stats.set i (bumpRecord ps calcRev st r)

/-- Step 3 of `analyzeSalesData`: one fresh accumulator per input seller. -/
def initStats (ss : List Seller) : List SellerStat :=
  ss.map (fun s =>
    { id := s.id
      name := s.first_name ++ " " ++ s.last_name
      revenue := some 0
      profit := some 0
      sales_count := 0
      products_sold := [] })

/-- Steps 3–5 of `analyzeSalesData`: initialise and aggregate. -/
def computeStats (ss : List Seller) (ps : List Product) (rs : List PRecord)
    (calcRev : Item → Product → JSNum) : List SellerStat :=
  rs.foldl (processRecord ps calcRev) (initStats ss)

/-- Stable insertion of `x` into `l`: `x` is placed before the first `y`
with `le x y` (i.e. before the first element the comparator does not require
after `x`), so earlier elements stay first on ties. -/
def insertOrd (le : α → α → Bool) (x : α) : List α → List α
  | [] => [x]
  | y :: ys => if le x y then x :: y :: ys else y :: insertOrd le x ys

/-- Stable insertion sort modelling ECMAScript's (stable) `Array.prototype.sort`
with predicate `le a b` ("`a` may stay before `b`", i.e. `comparator a b ≤ 0`,
with a NaN comparator value treated as non-positive). -/
def insertionSortB (le : α → α → Bool) : List α → List α
  | [] => []
  | x :: xs => insertOrd le x (insertionSortB le xs)

/-- Test `comparator(a, b) ≤ 0` for a JavaScript numeric comparator value. -/
def jsLeB (c : JSNum) : Bool :=
  match c with
  | some q => decide (q ≤ 0)
  | none => true

/-- Step 6: `sellerStats.sort((a, b) => b.profit - a.profit)`. -/
def sortStats (stats : List SellerStat) : List SellerStat :=
  insertionSortB (fun a b => jsLeB (jsub b.profit a.profit)) stats

/-- Computation of `top_products`: sort the `products_sold` entries by quantity
descending (`([, a], [, b]) => b - a`), take the first 10, and format each
as a `{sku, quantity}` pair. -/
def topProducts (sold : List (String × JSNum)) : List TopEntry :=
  ((insertionSortB (fun p q => jsLeB (jsub q.2 p.2)) sold).take 10).map
    (fun e => { sku := e.1, quantity := e.2 })

/-- One final report row (steps 7–8) for the seller at 0-based rank
`index` out of `total`. -/
def formatRow (calcBonus : ℤ → ℤ → SellerStat → JSNum) (total index : ℕ)
    (s : SellerStat) : Row :=
  { seller_id := s.id
    name := s.name
    revenue := jsToFixed2 s.revenue
    profit := jsToFixed2 s.profit
    sales_count := s.sales_count
    top_products := topProducts s.products_sold
    bonus := jsToFixed2 (calcBonus (index : ℤ) (total : ℤ) s) }

def finalizeAux (calcBonus : ℤ → ℤ → SellerStat → JSNum) (total : ℕ) :
    ℕ → List SellerStat → List Row
  | _, [] => []
  | i, s :: rest => formatRow calcBonus total i s :: finalizeAux calcBonus total (i + 1) rest

/-- Steps 7–8 of `analyzeSalesData`: assign bonuses and top products by rank
and format the report rows (in sorted order). -/
def finalize (calcBonus : ℤ → ℤ → SellerStat → JSNum) (sorted : List SellerStat) :
    List Row :=
  finalizeAux calcBonus sorted.length 0 sorted

/-- Function `analyzeSalesData(data, options)` from `src/main.js`.  A thrown `Error`
is modelled by `Except.error` with the (translated) message. -/
def analyzeSalesData (data : Option RawData) (options : Option RawOptions) :
    Except String (List Row) :=
  match data with
  | none => .error "invalid input: non-empty arrays sellers, products and purchase_records expected"
  | some d =>
    match d.sellers, d.products, d.purchase_records with
    | some ss, some ps, some rs =>
      if ss.isEmpty || ps.isEmpty || rs.isEmpty then
        .error "invalid input: non-empty arrays sellers, products and purchase_records expected"
      else
        match options with
        | none => .error "options must be an object"
        | some o =>
          match o.calculateRevenue, o.calculateBonus with
          | some calcRev, some calcBonus =>
            .ok (finalize calcBonus (sortStats (computeStats ss ps rs calcRev)))
          | _, _ => .error "options must contain the functions calculateRevenue and calculateBonus"
    | _, _, _ => .error "invalid input: non-empty arrays sellers, products and purchase_records expected"

/-- The default revenue policy as it is passed in `options`. -/
def defaultRevenue : Item → Product → JSNum :=
  fun item product => some (calculateSimpleRevenue item product)

/-! ## Basic lemmas about the NaN-propagating arithmetic -/

/-- Sum of a list of possibly-NaN values, as accumulated by `+=`. -/
def jsumList (l : List JSNum) : JSNum :=
  l.foldr jadd (some 0)

theorem jadd_some_zero_right (x : JSNum) : jadd x (some 0) = x := by
  cases x <;> simp [jadd]

theorem jadd_some_zero_left (x : JSNum) : jadd (some 0) x = x := by
  cases x <;> simp [jadd]

theorem jadd_assoc (a b c : JSNum) : jadd (jadd a b) c = jadd a (jadd b c) := by
  cases a <;> cases b <;> cases c <;> simp [jadd, add_assoc]

theorem jsumList_nil : jsumList [] = some 0 := rfl

theorem jsumList_cons (x : JSNum) (l : List JSNum) :
    jsumList (x :: l) = jadd x (jsumList l) := rfl

/-! ## Lemmas about the stable-sort model -/

theorem perm_insertOrd (le : α → α → Bool) (x : α) (l : List α) :
    (insertOrd le x l).Perm (x :: l) := by
  induction l with
  | nil => simp [insertOrd]
  | cons y ys ih =>
    simp only [insertOrd]
    by_cases h : le x y
    · simp [h]
    · simp only [h, if_neg, Bool.false_eq_true, ite_false]
      exact (ih.cons y).trans (List.Perm.swap x y ys)

theorem perm_insertionSortB (le : α → α → Bool) (l : List α) :
    (insertionSortB le l).Perm l := by
  induction l with
  | nil => simp [insertionSortB]
  | cons x xs ih =>
    exact (perm_insertOrd le x (insertionSortB le xs)).trans (ih.cons x)

theorem mem_insertionSortB {le : α → α → Bool} {l : List α} {a : α} :
    a ∈ insertionSortB le l ↔ a ∈ l :=
  (perm_insertionSortB le l).mem_iff

theorem insertOrd_congr (le le' : α → α → Bool) (x : α) (l : List α)
    (h : ∀ b ∈ l, le x b = le' x b) : insertOrd le x l = insertOrd le' x l := by
  induction l with
  | nil => rfl
  | cons y ys ih =>
    simp only [insertOrd]
    rw [h y (by simp)]
    by_cases h' : le' x y
    · simp [h']
    · simp only [h', Bool.false_eq_true, ite_false]
      rw [ih (fun b hb => h b (by simp [hb]))]

theorem insertionSortB_congr (le le' : α → α → Bool) (l : List α)
    (h : ∀ a ∈ l, ∀ b ∈ l, le a b = le' a b) :
    insertionSortB le l = insertionSortB le' l := by
  induction l with
  | nil => rfl
  | cons x xs ih =>
    simp only [insertionSortB]
    rw [ih (fun a ha b hb => h a (by simp [ha]) b (by simp [hb]))]
    exact insertOrd_congr le le' x _ (fun b hb =>
      h x (by simp) b (by simp [mem_insertionSortB.mp hb]))

theorem pairwise_insertOrd_key (f : α → ℚ) (x : α) (l : List α)
    (h : l.Pairwise (fun a b => f b ≤ f a)) :
    (insertOrd (fun a b => decide (f b ≤ f a)) x l).Pairwise (fun a b => f b ≤ f a) := by
  induction l with
  | nil => simp [insertOrd]
  | cons y ys ih =>
    simp only [insertOrd]
    by_cases hxy : f y ≤ f x
    · simp only [hxy, decide_True, ite_true]
      refine List.Pairwise.cons ?_ h
      intro z hz
      rcases List.mem_cons.mp hz with rfl | hz
      · exact hxy
      · exact le_trans ((List.pairwise_cons.mp h).1 z hz) hxy
    · simp only [hxy, decide_False, Bool.false_eq_true, ite_false]
      refine List.Pairwise.cons ?_ (ih (List.pairwise_cons.mp h).2)
      intro z hz
      have hz' := (perm_insertOrd (fun a b => decide (f b ≤ f a)) x ys).mem_iff.mp hz
      rcases List.mem_cons.mp hz' with rfl | hz''
      · exact le_of_lt (lt_of_not_le hxy)
      · exact (List.pairwise_cons.mp h).1 z hz''

theorem pairwise_insertionSortB_key (f : α → ℚ) (l : List α) :
    (insertionSortB (fun a b => decide (f b ≤ f a)) l).Pairwise (fun a b => f b ≤ f a) := by
  induction l with
  | nil => simp [insertionSortB]
  | cons x xs ih => exact pairwise_insertOrd_key f x _ ih

theorem sublist_insertOrd (le : α → α → Bool) (x : α) (l : List α) :
    l.Sublist (insertOrd le x l) := by
  induction l with
  | nil => simp [insertOrd]
  | cons y ys ih =>
    simp only [insertOrd]
    by_cases h : le x y
    · simp only [h, ite_true]
      exact List.Sublist.cons x (List.Sublist.refl _)
    · simp only [h, Bool.false_eq_true, ite_false]
      exact List.Sublist.cons₂ y ih

theorem insertOrd_pair_of_le (f : α → ℚ) (x : α) {l : List α}
    (hs : l.Pairwise (fun a b => f b ≤ f a)) {b : α} (hb : b ∈ l) (hfb : f b ≤ f x) :
    [x, b].Sublist (insertOrd (fun a b => decide (f b ≤ f a)) x l) := by
  induction l with
  | nil => cases hb
  | cons y ys ih =>
    simp only [insertOrd]
    by_cases hxy : f y ≤ f x
    · simp only [hxy, decide_True, ite_true]
      exact List.Sublist.cons₂ x (List.singleton_sublist.mpr hb)
    · simp only [hxy, decide_False, Bool.false_eq_true, ite_false]
      have hby : b ≠ y := fun hEq => hxy (hEq ▸ hfb)
      have hb' : b ∈ ys := by
        rcases List.mem_cons.mp hb with rfl | h'
        · exact absurd rfl hby
        · exact h'
      exact List.Sublist.cons y (ih (List.pairwise_cons.mp hs).2 hb')

theorem stable_insertionSortB_key (f : α → ℚ) {l : List α} {a b : α}
    (hab : [a, b].Sublist l) (hf : f b ≤ f a) :
    [a, b].Sublist (insertionSortB (fun a b => decide (f b ≤ f a)) l) := by
  induction l with
  | nil => cases hab
  | cons x xs ih =>
    cases hab with
    | cons _ h' =>
      exact (ih h').trans (sublist_insertOrd _ x _)
    | cons₂ _ h' =>
      have hbmem : b ∈ insertionSortB (fun a b => decide (f b ≤ f a)) xs :=
        mem_insertionSortB.mpr (List.singleton_sublist.mp h')
      exact insertOrd_pair_of_le f a (pairwise_insertionSortB_key f xs) hbmem hf

/-! ## Characterisation of the aggregation loop -/

/-- Contribution of one item to its seller's `profit` accumulator:
zero when the sku is unknown, otherwise raw revenue minus raw cost. -/
def itemProfit (ps : List Product) (item : Item) : JSNum :=
  match lookupLastSku ps item.sku with
  | none => some 0
  | some product => jsub (some (rawRevenue item)) (rawCost product item)

/-- Contribution of one item to its seller's `revenue` accumulator:
zero when the sku is unknown, otherwise the injected policy's value. -/
def itemRevenue (calcRev : Item → Product → JSNum) (ps : List Product)
    (item : Item) : JSNum :=
  match lookupLastSku ps item.sku with
  | none => some 0
  | some product => calcRev item product

/-- Total `profit` contribution of one purchase record. -/
def recordProfit (ps : List Product) (r : PRecord) : JSNum :=
  jsumList (r.items.map (itemProfit ps))

/-- Total `revenue` contribution of one purchase record. -/
def recordRevenue (calcRev : Item → Product → JSNum) (ps : List Product)
    (r : PRecord) : JSNum :=
  jsumList (r.items.map (itemRevenue calcRev ps))

theorem processItem_profit_revenue (ps : List Product)
    (calcRev : Item → Product → JSNum) (st : SellerStat) (item : Item) :
    (processItem ps calcRev st item).profit = jadd st.profit (itemProfit ps item)
    ∧ (processItem ps calcRev st item).revenue
        = jadd st.revenue (itemRevenue calcRev ps item) := by
  cases h : lookupLastSku ps item.sku <;>
    simp [processItem, itemProfit, itemRevenue, h, jadd_some_zero_right]

theorem processItem_id (ps : List Product) (calcRev : Item → Product → JSNum)
    (st : SellerStat) (item : Item) : (processItem ps calcRev st item).id = st.id := by
  cases h : lookupLastSku ps item.sku <;> simp [processItem, h]

theorem foldl_processItem_profit_revenue (ps : List Product)
    (calcRev : Item → Product → JSNum) (items : List Item) :
    ∀ st : SellerStat,
      ((items.foldl (processItem ps calcRev) st).profit
          = jadd st.profit (jsumList (items.map (itemProfit ps))))
      ∧ ((items.foldl (processItem ps calcRev) st).revenue
          = jadd st.revenue (jsumList (items.map (itemRevenue calcRev ps)))) := by
  induction items with
  | nil => intro st; simp [jsumList_nil, jadd_some_zero_right]
  | cons it its ih =>
    intro st
    have h1 := processItem_profit_revenue ps calcRev st it
    refine ⟨?_, ?_⟩
    · rw [List.foldl_cons, (ih _).1, h1.1, List.map_cons, jsumList_cons, jadd_assoc]
    · rw [List.foldl_cons, (ih _).2, h1.2, List.map_cons, jsumList_cons, jadd_assoc]

theorem foldl_processItem_id (ps : List Product) (calcRev : Item → Product → JSNum)
    (items : List Item) :
    ∀ st : SellerStat, (items.foldl (processItem ps calcRev) st).id = st.id := by
  induction items with
  | nil => intro st; rfl
  | cons it its ih =>
    intro st
    rw [List.foldl_cons, ih (processItem ps calcRev st it), processItem_id]

theorem bumpRecord_profit_revenue (ps : List Product)
    (calcRev : Item → Product → JSNum) (st : SellerStat) (r : PRecord) :
    (bumpRecord ps calcRev st r).profit = jadd st.profit (recordProfit ps r)
    ∧ (bumpRecord ps calcRev st r).revenue
        = jadd st.revenue (recordRevenue calcRev ps r) := by
  unfold bumpRecord recordProfit recordRevenue
  exact foldl_processItem_profit_revenue ps calcRev r.items _

theorem bumpRecord_id (ps : List Product) (calcRev : Item → Product → JSNum)
    (st : SellerStat) (r : PRecord) : (bumpRecord ps calcRev st r).id = st.id := by
  unfold bumpRecord
  exact foldl_processItem_id ps calcRev r.items _

theorem list_set_get_self (l : List α) (i : ℕ) (h : i < l.length) :
    l.set i (l.get ⟨i, h⟩) = l := by
  apply List.ext_get
  · simp
  · intro n h1 h2
    simp only [List.get_eq_getElem, List.getElem_set]
    by_cases hin : i = n
    · subst hin; simp
    · simp [hin]

theorem lastIdxOfIds_lt (ids : List String) (sid : String) (i : ℕ)
    (h : lastIdxOfIds ids sid = some i) : i < ids.length := by
  induction ids generalizing i with
  | nil => simp [lastIdxOfIds] at h
  | cons x rest ih =>
    simp only [lastIdxOfIds] at h
    cases h' : lastIdxOfIds rest sid with
    | some k =>
      rw [h'] at h
      cases h
      have := ih k h'
      simp only [List.length_cons]
      omega
    | none =>
      rw [h'] at h
      by_cases hx : x == sid
      · simp only [hx, ite_true] at h
        cases h
        simp
      · simp [hx] at h

theorem processRecord_eq_of_none (ps : List Product) (calcRev : Item → Product → JSNum)
    (stats : List SellerStat) (r : PRecord)
    (h : lastIdxOfIds (stats.map (fun s => s.id)) r.seller_id = none) :
    processRecord ps calcRev stats r = stats := by
  unfold processRecord
  rw [h]

theorem processRecord_eq_of_some (ps : List Product) (calcRev : Item → Product → JSNum)
    (stats : List SellerStat) (r : PRecord) (i : ℕ) (st : SellerStat)
    (h : lastIdxOfIds (stats.map (fun s => s.id)) r.seller_id = some i)
    (hg : stats.get? i = some st) :
    processRecord ps calcRev stats r = stats.set i (bumpRecord ps calcRev st r) := by
  unfold processRecord
  simp only [h, hg]

theorem processRecord_map_id (ps : List Product) (calcRev : Item → Product → JSNum)
    (stats : List SellerStat) (r : PRecord) :
    (processRecord ps calcRev stats r).map (fun s => s.id)
      = stats.map (fun s => s.id) := by
  cases h : lastIdxOfIds (stats.map (fun s => s.id)) r.seller_id with
  | none => rw [processRecord_eq_of_none ps calcRev stats r h]
  | some i =>
    have hi : i < stats.length := by
      have := lastIdxOfIds_lt _ _ _ h
      simpa using this
    obtain ⟨st, hg⟩ : ∃ st, stats.get? i = some st := by
      rw [List.get?_eq_getElem?, List.getElem?_eq_getElem hi]
      exact ⟨_, rfl⟩
    rw [processRecord_eq_of_some ps calcRev stats r i st h hg]
    simp only [List.map_set, bumpRecord_id]
    obtain ⟨hlt, hget⟩ := List.get?_eq_some.mp hg
    have hsid : st.id = (stats.map (fun s => s.id)).get ⟨i, by simpa using hlt⟩ := by
      simp [← hget]
    rw [hsid, list_set_get_self]

theorem processRecord_length (ps : List Product) (calcRev : Item → Product → JSNum)
    (stats : List SellerStat) (r : PRecord) :
    (processRecord ps calcRev stats r).length = stats.length := by
  have := congrArg List.length (processRecord_map_id ps calcRev stats r)
  simpa using this

theorem foldl_processRecord_map_id (ps : List Product)
    (calcRev : Item → Product → JSNum) (rs : List PRecord) :
    ∀ stats : List SellerStat,
      (rs.foldl (processRecord ps calcRev) stats).map (fun s => s.id)
        = stats.map (fun s => s.id) := by
  induction rs with
  | nil => intro stats; rfl
  | cons r rs' ih =>
    intro stats
    rw [List.foldl_cons, ih (processRecord ps calcRev stats r), processRecord_map_id]

theorem foldl_processRecord_profit_revenue (ps : List Product)
    (calcRev : Item → Product → JSNum) (rs : List PRecord) :
    ∀ (stats : List SellerStat) (i : ℕ),
      ((rs.foldl (processRecord ps calcRev) stats)[i]?).map (fun st => (st.profit, st.revenue))
        = (stats[i]?).map (fun st =>
            (jadd st.profit (jsumList ((rs.filter (fun r =>
                lastIdxOfIds (stats.map (fun s => s.id)) r.seller_id == some i)).map
                (recordProfit ps))),
             jadd st.revenue (jsumList ((rs.filter (fun r =>
                lastIdxOfIds (stats.map (fun s => s.id)) r.seller_id == some i)).map
                (recordRevenue calcRev ps))))) := by
  induction rs with
  | nil =>
    intro stats i
    simp only [List.foldl_nil, List.filter_nil, List.map_nil, jsumList_nil,
      jadd_some_zero_right]
  | cons r rs' ih =>
    intro stats i
    rw [List.foldl_cons, ih (processRecord ps calcRev stats r) i, processRecord_map_id]
    cases h : lastIdxOfIds (stats.map (fun s => s.id)) r.seller_id with
    | none =>
      rw [processRecord_eq_of_none ps calcRev stats r h]
      simp [List.filter_cons, h]
    | some j =>
      have hj : j < stats.length := by
        have := lastIdxOfIds_lt _ _ _ h
        simpa using this
      obtain ⟨st, hg⟩ : ∃ st, stats.get? j = some st := by
        rw [List.get?_eq_getElem?, List.getElem?_eq_getElem hj]
        exact ⟨_, rfl⟩
      rw [processRecord_eq_of_some ps calcRev stats r j st h hg]
      have hge : stats[j]? = some st := by rw [← List.get?_eq_getElem?]; exact hg
      by_cases hij : j = i
      · subst hij
        rw [List.getElem?_set_self hj, hge]
        have hb := bumpRecord_profit_revenue ps calcRev st r
        simp only [Option.map_some', hb.1, hb.2, List.filter_cons, h,
          beq_self_eq_true, ite_true, List.map_cons, jsumList_cons, jadd_assoc]
      · rw [List.getElem?_set_ne hij]
        have hpred : (lastIdxOfIds (stats.map (fun s => s.id)) r.seller_id == some i) = false := by
          rw [h]
          simp [hij]
        rw [List.filter_cons, hpred]
        simp

theorem computeStats_profit_revenue (ss : List Seller) (ps : List Product)
    (rs : List PRecord) (calcRev : Item → Product → JSNum) (i : ℕ) :
    ((computeStats ss ps rs calcRev)[i]?).map (fun st => (st.profit, st.revenue))
      = (ss[i]?).map (fun _ =>
          (jsumList ((rs.filter (fun r =>
              lastIdxOfIds (ss.map (fun s => s.id)) r.seller_id == some i)).map
              (recordProfit ps)),
           jsumList ((rs.filter (fun r =>
              lastIdxOfIds (ss.map (fun s => s.id)) r.seller_id == some i)).map
              (recordRevenue calcRev ps)))) := by
  unfold computeStats
  rw [foldl_processRecord_profit_revenue]
  have hid : (initStats ss).map (fun s => s.id) = ss.map (fun s => s.id) := by
    simp only [initStats, List.map_map]
    rfl
  rw [hid]
  simp only [initStats, List.getElem?_map]
  cases ss[i]? <;> simp [jadd_some_zero_left]

/-! ## The accumulators stay NaN-free when every quantity is numeric -/

/-- Invariant of a seller stat: the profit accumulator and every
`products_sold` quantity are actual numbers (not `NaN`). -/
def StatGood (st : SellerStat) : Prop :=
  st.profit.isSome = true ∧ ∀ e ∈ st.products_sold, (e.2).isSome = true

/-- Decidable test that every item quantity in every record is numeric. -/
def numericQty (rs : List PRecord) : Bool :=
  rs.all (fun r => r.items.all (fun item =>
    match item.quantity with
    | .num _ => true
    | .other => false))

theorem numericQty_spec {rs : List PRecord} (h : numericQty rs = true) :
    ∀ r ∈ rs, ∀ item ∈ r.items, ∃ q, item.quantity = JSVal.num q := by
  intro r hr item hit
  have h1 := (List.all_eq_true.mp h) r hr
  have h2 := (List.all_eq_true.mp h1) item hit
  cases hq : item.quantity with
  | num q => exact ⟨q, rfl⟩
  | other => rw [hq] at h2; cases h2

theorem psAdd_good (l : List (String × JSNum)) (sku : String) (q : ℚ)
    (hl : ∀ e ∈ l, (e.2 : JSNum).isSome = true) :
    ∀ e ∈ psAdd l sku (JSVal.num q), (e.2).isSome = true := by
  induction l with
  | nil =>
    intro e he
    simp only [psAdd, List.mem_singleton] at he
    subst he
    simp [jadd, jsvalNum]
  | cons hd rest ih =>
    intro e he
    obtain ⟨s, v⟩ := hd
    simp only [psAdd] at he
    by_cases hs : s == sku
    · rw [if_pos hs] at he
      rcases List.mem_cons.mp he with rfl | he'
      · simp [jadd, jsvalNum]
      · exact hl _ (List.mem_cons_of_mem _ he')
    · rw [if_neg hs] at he
      rcases List.mem_cons.mp he with rfl | he'
      · exact hl _ (List.mem_cons_self _ _)
      · exact ih (fun e' he'' => hl e' (List.mem_cons_of_mem _ he'')) e he'

theorem processItem_good (ps : List Product) (calcRev : Item → Product → JSNum)
    (st : SellerStat) (item : Item) (hq : ∃ q, item.quantity = JSVal.num q)
    (hg : StatGood st) : StatGood (processItem ps calcRev st item) := by
  obtain ⟨q, hqe⟩ := hq
  cases h : lookupLastSku ps item.sku with
  | none => simpa [processItem, h] using hg
  | some product =>
    obtain ⟨p, hp⟩ := Option.isSome_iff_exists.mp hg.1
    refine ⟨?_, ?_⟩
    · simp [processItem, h, hp, rawCost, hqe, jadd, jsub]
    · intro e he
      simp only [processItem, h] at he
      rw [hqe] at he
      exact psAdd_good st.products_sold item.sku q hg.2 e he

theorem foldl_processItem_good (ps : List Product) (calcRev : Item → Product → JSNum)
    (items : List Item) (hq : ∀ item ∈ items, ∃ q, item.quantity = JSVal.num q) :
    ∀ st : SellerStat, StatGood st → StatGood (items.foldl (processItem ps calcRev) st) := by
  induction items with
  | nil => intro st hg; exact hg
  | cons it its ih =>
    intro st hg
    rw [List.foldl_cons]
    exact ih (fun i hi => hq i (List.mem_cons_of_mem _ hi)) _
      (processItem_good ps calcRev st it (hq it (List.mem_cons_self _ _)) hg)

theorem bumpRecord_good (ps : List Product) (calcRev : Item → Product → JSNum)
    (st : SellerStat) (r : PRecord)
    (hq : ∀ item ∈ r.items, ∃ q, item.quantity = JSVal.num q)
    (hg : StatGood st) : StatGood (bumpRecord ps calcRev st r) := by
  unfold bumpRecord
  exact foldl_processItem_good ps calcRev r.items hq _ ⟨hg.1, hg.2⟩

theorem foldl_processRecord_good (ps : List Product) (calcRev : Item → Product → JSNum)
    (rs : List PRecord)
    (hq : ∀ r ∈ rs, ∀ item ∈ r.items, ∃ q, item.quantity = JSVal.num q) :
    ∀ stats : List SellerStat, (∀ st ∈ stats, StatGood st) →
      ∀ st ∈ rs.foldl (processRecord ps calcRev) stats, StatGood st := by
  induction rs with
  | nil => intro stats hg st hst; exact hg st hst
  | cons r rs' ih =>
    intro stats hg st hst
    rw [List.foldl_cons] at hst
    refine ih (fun r' hr' => hq r' (List.mem_cons_of_mem _ hr')) _ ?_ st hst
    intro st' hst'
    cases h : lastIdxOfIds (stats.map (fun s => s.id)) r.seller_id with
    | none =>
      rw [processRecord_eq_of_none ps calcRev stats r h] at hst'
      exact hg st' hst'
    | some j =>
      have hj : j < stats.length := by
        have := lastIdxOfIds_lt _ _ _ h
        simpa using this
      obtain ⟨stj, hgj⟩ : ∃ stj, stats.get? j = some stj := by
        rw [List.get?_eq_getElem?, List.getElem?_eq_getElem hj]
        exact ⟨_, rfl⟩
      rw [processRecord_eq_of_some ps calcRev stats r j stj h hgj] at hst'
      rcases List.mem_or_eq_of_mem_set hst' with hmem | rfl
      · exact hg st' hmem
      · exact bumpRecord_good ps calcRev stj r
          (hq r (List.mem_cons_self _ _)) (hg stj (List.get?_mem hgj))

theorem computeStats_good (ss : List Seller) (ps : List Product) (rs : List PRecord)
    (calcRev : Item → Product → JSNum) (hq : numericQty rs = true) :
    ∀ st ∈ computeStats ss ps rs calcRev, StatGood st := by
  unfold computeStats
  refine foldl_processRecord_good ps calcRev rs (numericQty_spec hq) _ ?_
  intro st hst
  simp only [initStats, List.mem_map] at hst
  obtain ⟨s, _, rfl⟩ := hst
  exact ⟨rfl, fun e he => absurd he (List.not_mem_nil e)⟩

/-! ## The seller sort as a key-based sort on NaN-free stats -/

theorem sortStats_eq_key (stats : List SellerStat)
    (hg : ∀ st ∈ stats, st.profit.isSome = true) :
    sortStats stats
      = insertionSortB (fun a b => decide (b.profit.getD 0 ≤ a.profit.getD 0)) stats := by
  unfold sortStats
  apply insertionSortB_congr
  intro a ha b hb
  obtain ⟨x, hx⟩ := Option.isSome_iff_exists.mp (hg a ha)
  obtain ⟨y, hy⟩ := Option.isSome_iff_exists.mp (hg b hb)
  simp only [hx, hy, jsub, jsLeB, Option.getD_some]
  exact decide_eq_decide.mpr sub_nonpos

/-! ## Lemmas about the final formatting pass -/

theorem finalizeAux_getElem? (g : ℤ → ℤ → SellerStat → JSNum) (total : ℕ)
    (l : List SellerStat) :
    ∀ (i k : ℕ), (finalizeAux g total i l)[k]?
      = (l[k]?).map (fun s => formatRow g total (i + k) s) := by
  induction l with
  | nil => intro i k; simp [finalizeAux]
  | cons s rest ih =>
    intro i k
    cases k with
    | zero => simp [finalizeAux]
    | succ k' =>
      simp only [finalizeAux, List.getElem?_cons_succ]
      rw [ih (i + 1) k']
      have harith : i + (k' + 1) = (i + 1) + k' := by omega
      rw [harith]

theorem finalize_getElem? (g : ℤ → ℤ → SellerStat → JSNum) (sorted : List SellerStat)
    (k : ℕ) :
    (finalize g sorted)[k]? = (sorted[k]?).map (fun s => formatRow g sorted.length k s) := by
  unfold finalize
  rw [finalizeAux_getElem?]
  simp

theorem finalizeAux_length (g : ℤ → ℤ → SellerStat → JSNum) (total : ℕ)
    (l : List SellerStat) : ∀ i, (finalizeAux g total i l).length = l.length := by
  induction l with
  | nil => intro i; rfl
  | cons s rest ih => intro i; simp [finalizeAux, ih (i + 1)]

theorem finalize_length (g : ℤ → ℤ → SellerStat → JSNum) (sorted : List SellerStat) :
    (finalize g sorted).length = sorted.length :=
  finalizeAux_length g sorted.length sorted 0

theorem finalizeAux_map_sid (g : ℤ → ℤ → SellerStat → JSNum) (total : ℕ)
    (l : List SellerStat) :
    ∀ i, (finalizeAux g total i l).map (fun r => r.seller_id)
      = l.map (fun s => s.id) := by
  induction l with
  | nil => intro i; rfl
  | cons s rest ih => intro i; simp [finalizeAux, formatRow, ih (i + 1)]

theorem finalize_map_sid (g : ℤ → ℤ → SellerStat → JSNum) (sorted : List SellerStat) :
    (finalize g sorted).map (fun r => r.seller_id) = sorted.map (fun s => s.id) :=
  finalizeAux_map_sid g sorted.length sorted 0

/-! ## Lemmas about top products -/

theorem topProducts_sort_eq_key (sold : List (String × JSNum))
    (hg : ∀ e ∈ sold, (e.2 : JSNum).isSome = true) :
    insertionSortB (fun p q => jsLeB (jsub q.2 p.2)) sold
      = insertionSortB (fun p q =>
          decide ((q.2 : JSNum).getD 0 ≤ (p.2 : JSNum).getD 0)) sold := by
  apply insertionSortB_congr
  intro a ha b hb
  obtain ⟨x, hx⟩ := Option.isSome_iff_exists.mp (hg a ha)
  obtain ⟨y, hy⟩ := Option.isSome_iff_exists.mp (hg b hb)
  simp only [hx, hy, jsub, jsLeB, Option.getD_some]
  exact decide_eq_decide.mpr sub_nonpos

theorem topProducts_spec (sold : List (String × JSNum))
    (hg : ∀ e ∈ sold, (e.2 : JSNum).isSome = true) :
    (topProducts sold).length ≤ 10
    ∧ (topProducts sold).Pairwise (fun a b => b.quantity.getD 0 ≤ a.quantity.getD 0)
    ∧ ∀ e ∈ topProducts sold, (e.sku, e.quantity) ∈ sold := by
  refine ⟨?_, ?_, ?_⟩
  · unfold topProducts
    rw [List.length_map]
    exact List.length_take_le 10 _
  · unfold topProducts
    rw [topProducts_sort_eq_key sold hg]
    apply List.pairwise_map.mpr
    refine List.Pairwise.sublist (List.take_sublist _ _) ?_
    exact pairwise_insertionSortB_key (fun p : String × JSNum => p.2.getD 0) sold
  · intro e he
    unfold topProducts at he
    obtain ⟨p, hp, rfl⟩ := List.mem_map.mp he
    have hp' : p ∈ insertionSortB (fun p q => jsLeB (jsub q.2 p.2)) sold :=
      (List.take_sublist 10 _).subset hp
    have hmem : p ∈ sold := mem_insertionSortB.mp hp'
    simpa using hmem

theorem toFixed2_zero : toFixed2 0 = 0 := by
  norm_num [toFixed2, roundHalfAway]

/-! ## Validation unfolding -/

theorem analyzeSalesData_ok (ss : List Seller) (ps : List Product) (rs : List PRecord)
    (f : Item → Product → JSNum) (g : ℤ → ℤ → SellerStat → JSNum)
    (hss : ss ≠ []) (hps : ps ≠ []) (hrs : rs ≠ []) :
    analyzeSalesData (some ⟨some ss, some ps, some rs⟩) (some ⟨some f, some g⟩)
      = .ok (finalize g (sortStats (computeStats ss ps rs f))) := by
  have hc : (ss.isEmpty || ps.isEmpty || rs.isEmpty) = false := by
    simp [List.isEmpty_iff, hss, hps, hrs]
  unfold analyzeSalesData
  simp [hc]

/-! ## Concrete inputs used by witnesses and counterexamples -/

/-- Projection of a report to its rows' profits (none when it threw). -/
def reportProfits : Except String (List Row) → Option (List JSNum)
  | .ok rows => some (rows.map (fun r => r.profit))
  | .error _ => none

/-- Projection of a report to its rows' revenues (none when it threw). -/
def reportRevenues : Except String (List Row) → Option (List JSNum)
  | .ok rows => some (rows.map (fun r => r.revenue))
  | .error _ => none

/-- Projection of a report to its rows' bonuses (none when it threw). -/
def reportBonuses : Except String (List Row) → Option (List JSNum)
  | .ok rows => some (rows.map (fun r => r.bonus))
  | .error _ => none

/-- Test that a call threw. -/
def isErr : Except String (List Row) → Bool
  | .error _ => true
  | .ok _ => false

def oneSeller : List Seller := [⟨"s1", "A", "B"⟩]

/-- The default `options` object: both default policies. -/
def defaultOpts : Option RawOptions :=
  some ⟨some defaultRevenue, some calculateBonusByProfit⟩

/-- A seller stat used to instantiate witnesses. -/
def witStat : SellerStat :=
  ⟨"s1", "A B", some 0, some 20, 0, []⟩

/-! ## Claim C4 -/

/-- C4: `calculateBonusByProfit(index, total, seller)` returns 0 when
`total ≤ 0` or `index` is outside `[0, total)`; otherwise it returns the
seller's profit multiplied by the rate selected by rank, with the
first-match precedence of the listed cases: 0.15 for rank 0, 0.10 for
ranks 1 and 2, 0.00 for the last rank `total - 1` (when it is not one of
ranks 0, 1, 2), and 0.05 for all other ranks. -/
theorem c4_bonus_policy_contract (index total : ℤ) (s : SellerStat) :
    ((total ≤ 0 ∨ index < 0 ∨ total ≤ index) →
        calculateBonusByProfit index total s = some 0)
    ∧ (0 < total → calculateBonusByProfit 0 total s = jmul s.profit (some (15/100)))
    ∧ (1 < total → calculateBonusByProfit 1 total s = jmul s.profit (some (1/10)))
    ∧ (2 < total → calculateBonusByProfit 2 total s = jmul s.profit (some (1/10)))
    ∧ (4 ≤ total → calculateBonusByProfit (total - 1) total s = jmul s.profit (some 0))
    ∧ (∀ i : ℤ, 3 ≤ i → i < total - 1 →
        calculateBonusByProfit i total s = jmul s.profit (some (1/20))) := by
  unfold calculateBonusByProfit
  refine ⟨?_, ?_, ?_, ?_, ?_, ?_⟩
  · intro h
    rw [if_pos h]
  · intro h
    rw [if_neg (by omega)]
    norm_num
  · intro h
    rw [if_neg (by omega)]
    norm_num
  · intro h
    rw [if_neg (by omega)]
    norm_num
  · intro h
    rw [if_neg (by omega)]
    have h0 : ¬(total - 1 = 0) := by omega
    have h1 : ¬(total - 1 = 1 ∨ total - 1 = 2) := by omega
    simp [h0, h1]
  · intro i h3 hlt
    rw [if_neg (by omega)]
    have h0 : ¬(i = 0) := by omega
    have h1 : ¬(i = 1 ∨ i = 2) := by omega
    have h2 : ¬(i = total - 1) := by omega
    simp [h0, h1, h2]

/-- Witness for C4 at concrete ranks. -/
theorem c4_bonus_policy_contract_witness :
    calculateBonusByProfit 3 2 witStat = some 0
    ∧ calculateBonusByProfit 0 1 witStat = jmul witStat.profit (some (15/100))
    ∧ calculateBonusByProfit 2 5 witStat = jmul witStat.profit (some (1/10))
    ∧ calculateBonusByProfit 9 10 witStat = jmul witStat.profit (some 0)
    ∧ calculateBonusByProfit 5 10 witStat = jmul witStat.profit (some (1/20)) := by
  refine ⟨?_, ?_, ?_, ?_, ?_⟩
  · exact (c4_bonus_policy_contract 3 2 witStat).1 (by norm_num)
  · exact (c4_bonus_policy_contract 0 1 witStat).2.1 (by norm_num)
  · exact (c4_bonus_policy_contract 2 5 witStat).2.2.2.1 (by norm_num)
  · exact (c4_bonus_policy_contract 9 10 witStat).2.2.2.2.1 (by norm_num)
  · exact (c4_bonus_policy_contract 5 10 witStat).2.2.2.2.2 5 (by norm_num) (by norm_num)

/-! ## Claim C6 -/

def cexItem6 : Item := ⟨"P1", .num (1/100), .num 1, .num 50⟩

def cexProd6 : Product := ⟨"P1", 0⟩

/-- C6 counterexample: on `sale_price = 0.01`, `quantity = 1`,
`discount = 50`, `calculateSimpleRevenue` returns the per-item-rounded
`0.01`, not the exact `sale_price * quantity * (1 - discount/100) = 0.005`. -/
theorem c6_exact_value_cex :
    calculateSimpleRevenue cexItem6 cexProd6 = 1/100
    ∧ calculateSimpleRevenue cexItem6 cexProd6 ≠ (1/100) * 1 * (1 - 50/100) := by
  have h1 : calculateSimpleRevenue cexItem6 cexProd6 = 1/100 := by
    norm_num [calculateSimpleRevenue, cexItem6, cexProd6, toFixed2, roundHalfAway]
  refine ⟨h1, ?_⟩
  rw [h1]
  norm_num

/-- C6 (amended): `calculateSimpleRevenue` returns 0 whenever any of
`sale_price`, `quantity`, `discount` is not numeric; otherwise it returns
`sale_price * quantity * (1 - discount/100)` rounded to two decimal places
(by `Number(revenue.toFixed(2))`), not the exact product. -/
theorem c6_simple_revenue_amended (item : Item) (product : Product) :
    ((item.sale_price = JSVal.other ∨ item.quantity = JSVal.other
        ∨ item.discount = JSVal.other) → calculateSimpleRevenue item product = 0)
    ∧ (∀ sp q d : ℚ, item.sale_price = JSVal.num sp → item.quantity = JSVal.num q →
        item.discount = JSVal.num d →
        calculateSimpleRevenue item product = toFixed2 (sp * q * (1 - d / 100))) := by
  constructor
  · intro h
    cases hsp : item.sale_price <;> cases hqy : item.quantity <;>
      cases hd : item.discount <;> simp_all [calculateSimpleRevenue]
  · intro sp q d hsp hqy hd
    simp [calculateSimpleRevenue, hsp, hqy, hd]

/-- Witness for C6 (amended) at concrete items. -/
theorem c6_simple_revenue_amended_witness :
    calculateSimpleRevenue ⟨"P1", .other, .num 1, .num 0⟩ cexProd6 = 0
    ∧ calculateSimpleRevenue cexItem6 cexProd6 = toFixed2 ((1/100) * 1 * (1 - 50/100)) := by
  constructor
  · exact (c6_simple_revenue_amended ⟨"P1", .other, .num 1, .num 0⟩ cexProd6).1
      (Or.inl rfl)
  · exact (c6_simple_revenue_amended cexItem6 cexProd6).2 (1/100) 1 50 rfl rfl rfl

/-! ## Claim C8 -/

/-- C8: `analyzeSalesData` throws (and produces no report) exactly when the
`data` argument is missing, or `sellers`/`products`/`purchase_records` is
not an array, or any of the three is empty, or `options` is not a non-null
object, or `calculateRevenue`/`calculateBonus` is not callable. -/
theorem c8_validation_iff (data : Option RawData) (options : Option RawOptions) :
    isErr (analyzeSalesData data options) = true ↔
      (data = none
        ∨ ∃ d, data = some d ∧
          (d.sellers = none ∨ d.products = none ∨ d.purchase_records = none
            ∨ d.sellers = some [] ∨ d.products = some [] ∨ d.purchase_records = some []
            ∨ options = none
            ∨ ∃ o, options = some o ∧
                (o.calculateRevenue = none ∨ o.calculateBonus = none))) := by
  cases data with
  | none => simp [analyzeSalesData, isErr]
  | some d =>
    obtain ⟨sOpt, pOpt, rOpt⟩ := d
    cases sOpt with
    | none => simp [analyzeSalesData, isErr]
    | some ss =>
      cases pOpt with
      | none => simp [analyzeSalesData, isErr]
      | some ps =>
        cases rOpt with
        | none => simp [analyzeSalesData, isErr]
        | some rs =>
          by_cases hss : ss = []
          · subst hss
            simp [analyzeSalesData, isErr]
          · by_cases hps : ps = []
            · subst hps
              simp [analyzeSalesData, isErr]
            · by_cases hrs : rs = []
              · subst hrs
                simp [analyzeSalesData, isErr, hss, hps]
              · cases options with
                | none =>
                  have hc : (ss.isEmpty || ps.isEmpty || rs.isEmpty) = false := by
                    simp [List.isEmpty_iff, hss, hps, hrs]
                  simp [analyzeSalesData, isErr, hc, hss, hps, hrs]
                | some o =>
                  obtain ⟨fOpt, gOpt⟩ := o
                  have hc : (ss.isEmpty || ps.isEmpty || rs.isEmpty) = false := by
                    simp [List.isEmpty_iff, hss, hps, hrs]
                  cases fOpt with
                  | none => simp [analyzeSalesData, isErr, hc, hss, hps, hrs]
                  | some f =>
                    cases gOpt with
                    | none => simp [analyzeSalesData, isErr, hc, hss, hps, hrs]
                    | some g =>
                      rw [analyzeSalesData_ok ss ps rs f g hss hps hrs]
                      simp [isErr, hss, hps, hrs]

/-- Witness for C8: an empty `purchase_records` array (with non-empty
sellers and products and well-formed options) raises the invalid-input
error. -/
theorem c8_validation_iff_witness :
    isErr (analyzeSalesData
      (some ⟨some oneSeller, some [cexProd6], some []⟩) defaultOpts) = true := by
  refine (c8_validation_iff _ _).mpr ?_
  exact Or.inr ⟨_, rfl, by simp⟩

/-! ## Claim C2 -/

def cexRecords2 : List PRecord :=
  [⟨"s1", [⟨"P1", .num (1/100), .num 1, .num 50⟩, ⟨"P1", .num (1/100), .num 1, .num 50⟩]⟩]

def cexData2 : Option RawData := some ⟨some oneSeller, some [cexProd6], some cexRecords2⟩

/-- C2 counterexample: with the default policies, two items of raw revenue
0.005 each are accumulated as their per-item-rounded values 0.01 + 0.01, so
the reported revenue is 0.02, while rounding only once at output over the
exact accumulation `rawRevenue + rawRevenue` would give 0.01. -/
theorem c2_midstream_rounding_cex :
    reportRevenues (analyzeSalesData cexData2 defaultOpts) = some [some (1/50)]
    ∧ jsToFixed2 (jadd (some (rawRevenue ⟨"P1", .num (1/100), .num 1, .num 50⟩))
        (some (rawRevenue ⟨"P1", .num (1/100), .num 1, .num 50⟩))) = some (1/100)
    ∧ (some ((1:ℚ)/50) : JSNum) ≠ some (1/100) := by
  refine ⟨?_, ?_, ?_⟩
  · norm_num [reportRevenues, analyzeSalesData, finalize, finalizeAux, formatRow,
      sortStats, insertionSortB, insertOrd, jsLeB, computeStats, initStats,
      processRecord, processItem, bumpRecord, lastIdxOfIds, lookupLastSku, psAdd,
      jsvalNum, rawRevenue, rawCost, jadd, jsub, jmul, topProducts, jsToFixed2,
      toFixed2, roundHalfAway, calculateSimpleRevenue, calculateBonusByProfit,
      defaultRevenue, defaultOpts, cexData2, cexRecords2, oneSeller, cexProd6]
  · norm_num [jsToFixed2, jadd, rawRevenue, toFixed2, roundHalfAway]
  · intro h
    rw [Option.some.injEq] at h
    norm_num at h

/-- C2 (amended): the aggregator's `profit` accumulator is the exact
(unrounded) sum of the per-item raw profits of the records assigned to
that seller, and its `revenue` accumulator is the exact sum of the
per-item values returned by the injected revenue policy, which the
default policy already rounds per item; the final rounding to two
decimal places of `revenue`, `profit`, and `bonus` happens once, at
output formatting. -/
theorem c2_accumulation_amended (ss : List Seller) (ps : List Product)
    (rs : List PRecord) (f : Item → Product → JSNum)
    (g : ℤ → ℤ → SellerStat → JSNum)
    (hss : ss ≠ []) (hps : ps ≠ []) (hrs : rs ≠ []) :
    analyzeSalesData (some ⟨some ss, some ps, some rs⟩) (some ⟨some f, some g⟩)
        = .ok (finalize g (sortStats (computeStats ss ps rs f)))
    ∧ (∀ i : ℕ,
        ((computeStats ss ps rs f)[i]?).map (fun st => (st.profit, st.revenue))
          = (ss[i]?).map (fun _ =>
              (jsumList ((rs.filter (fun r =>
                  lastIdxOfIds (ss.map (fun s => s.id)) r.seller_id == some i)).map
                  (recordProfit ps)),
               jsumList ((rs.filter (fun r =>
                  lastIdxOfIds (ss.map (fun s => s.id)) r.seller_id == some i)).map
                  (recordRevenue f ps)))))
    ∧ (∀ k : ℕ,
        ((finalize g (sortStats (computeStats ss ps rs f)))[k]?).map
            (fun r => (r.profit, r.revenue, r.bonus))
          = ((sortStats (computeStats ss ps rs f))[k]?).map
              (fun st => (jsToFixed2 st.profit, jsToFixed2 st.revenue,
                jsToFixed2 (g (k : ℤ)
                  (((sortStats (computeStats ss ps rs f)).length : ℕ) : ℤ) st)))) := by
  refine ⟨analyzeSalesData_ok ss ps rs f g hss hps hrs, ?_, ?_⟩
  · intro i
    exact computeStats_profit_revenue ss ps rs f i
  · intro k
    rw [finalize_getElem?]
    cases (sortStats (computeStats ss ps rs f))[k]? <;> simp [formatRow]

/-- Witness for C2 (amended) at the two-half-cent-items input. -/
theorem c2_accumulation_amended_witness :
    oneSeller ≠ [] ∧ ([cexProd6] : List Product) ≠ [] ∧ cexRecords2 ≠ []
    ∧ analyzeSalesData cexData2 defaultOpts
        = .ok (finalize calculateBonusByProfit
            (sortStats (computeStats oneSeller [cexProd6] cexRecords2 defaultRevenue))) := by
  refine ⟨by simp [oneSeller], by simp, by simp [cexRecords2], ?_⟩
  exact (c2_accumulation_amended oneSeller [cexProd6] cexRecords2 defaultRevenue
    calculateBonusByProfit (by simp [oneSeller]) (by simp) (by simp [cexRecords2])).1

/-! ## Claim C3 -/

def cexItem3 : Item := ⟨"P1", .num 3, .num 2, .num 0⟩

def cexProd3 : Product := ⟨"P1", 1⟩

/-- A revenue policy that returns the constant 100, to separate the policy
value from the raw revenue. -/
def constHundred : Item → Product → JSNum := fun _ _ => some 100

def cexData3 : Option RawData :=
  some ⟨some oneSeller, some [cexProd3], some [⟨"s1", [cexItem3]⟩]⟩

def cexOpts3 : Option RawOptions := some ⟨some constHundred, some calculateBonusByProfit⟩

/-- C3 counterexample: with an injected policy returning 100, the amount
added to the seller's profit is the raw `3·2·(1-0) - 1·2 = 4`, not the
claimed `calculateRevenue(item, product) - purchase_price·quantity = 98`:
the profit accumulation ignores the injected revenue policy. -/
theorem c3_profit_ignores_policy_cex :
    reportProfits (analyzeSalesData cexData3 cexOpts3) = some [some 4]
    ∧ jsub (constHundred cexItem3 cexProd3) (rawCost cexProd3 cexItem3) = some 98
    ∧ (some (4:ℚ) : JSNum) ≠ some 98 := by
  refine ⟨?_, ?_, ?_⟩
  · norm_num [reportProfits, analyzeSalesData, finalize, finalizeAux, formatRow,
      sortStats, insertionSortB, insertOrd, jsLeB, computeStats, initStats,
      processRecord, processItem, bumpRecord, lastIdxOfIds, lookupLastSku, psAdd,
      jsvalNum, rawRevenue, rawCost, jadd, jsub, jmul, topProducts, jsToFixed2,
      toFixed2, roundHalfAway, calculateBonusByProfit, constHundred,
      cexOpts3, cexData3, oneSeller, cexProd3, cexItem3]
  · norm_num [jsub, constHundred, rawCost, cexProd3, cexItem3]
  · intro h
    rw [Option.some.injEq] at h
    norm_num at h

/-- C3 (amended): for an item whose sku resolves to a product, the amount
added to the seller's profit is `rawRevenue item - rawCost product item`
(the unrounded `sale_price·quantity·(1-discount/100)`, or 0 on non-numeric
fields, minus `purchase_price·quantity`), independent of the injected
revenue policy. -/
theorem c3_profit_delta_amended (ps : List Product) (f : Item → Product → JSNum)
    (st : SellerStat) (item : Item) (product : Product)
    (h : lookupLastSku ps item.sku = some product) :
    (processItem ps f st item).profit
        = jadd st.profit (jsub (some (rawRevenue item)) (rawCost product item))
    ∧ ∀ f' : Item → Product → JSNum,
        (processItem ps f st item).profit = (processItem ps f' st item).profit := by
  constructor
  · simp [processItem, h]
  · intro f'
    simp [processItem, h]

/-- Witness for C3 (amended) at a concrete item and product. -/
theorem c3_profit_delta_amended_witness :
    (processItem [cexProd3] constHundred witStat cexItem3).profit
        = jadd witStat.profit (jsub (some (rawRevenue cexItem3)) (rawCost cexProd3 cexItem3))
    ∧ (processItem [cexProd3] constHundred witStat cexItem3).profit
        = (processItem [cexProd3] defaultRevenue witStat cexItem3).profit := by
  have hlk : lookupLastSku [cexProd3] cexItem3.sku = some cexProd3 := by
    simp [lookupLastSku, cexProd3, cexItem3]
  exact ⟨(c3_profit_delta_amended [cexProd3] constHundred witStat cexItem3 cexProd3 hlk).1,
    (c3_profit_delta_amended [cexProd3] constHundred witStat cexItem3 cexProd3 hlk).2
      defaultRevenue⟩

/-! ## Claim C9 -/

def cexItem9 : Item := ⟨"P1", .other, .num 1, .num 0⟩

def cexProd9 : Product := ⟨"P1", 10⟩

def cexData9 : Option RawData :=
  some ⟨some oneSeller, some [cexProd9], some [⟨"s1", [cexItem9]⟩]⟩

/-- C9 counterexample: an item with a non-numeric `sale_price` (and numeric
quantity 1, product purchase price 10) does not contribute zero to its
seller's accumulators: the reported profit is `0 - 10·1 = -10`, not 0. -/
theorem c9_nonnumeric_contribution_cex :
    reportProfits (analyzeSalesData cexData9 defaultOpts) = some [some (-10)]
    ∧ (some ((-10 : ℚ)) : JSNum) ≠ some 0 := by
  refine ⟨?_, ?_⟩
  · norm_num [reportProfits, analyzeSalesData, finalize, finalizeAux, formatRow,
      sortStats, insertionSortB, insertOrd, jsLeB, computeStats, initStats,
      processRecord, processItem, bumpRecord, lastIdxOfIds, lookupLastSku, psAdd,
      jsvalNum, rawRevenue, rawCost, jadd, jsub, jmul, topProducts, jsToFixed2,
      toFixed2, roundHalfAway, calculateSimpleRevenue, calculateBonusByProfit,
      defaultRevenue, defaultOpts, cexData9, oneSeller, cexProd9, cexItem9]
  · intro h
    rw [Option.some.injEq] at h
    norm_num at h

/-- C9 (amended): aggregation is fail-soft in this form: a record with an
unknown `seller_id` leaves all stats unchanged; an item with an unknown sku
leaves its seller's stat unchanged; an item with a non-numeric `sale_price`
or `discount` (numeric quantity `q`) contributes 0 to revenue under the
default policy but `-(purchase_price·q)` to profit and `q` to
`products_sold`; and no such anomaly makes a shape-valid call throw. -/
theorem c9_failsoft_amended :
    (∀ (ps : List Product) (f : Item → Product → JSNum)
        (stats : List SellerStat) (r : PRecord),
        lastIdxOfIds (stats.map (fun s => s.id)) r.seller_id = none →
        processRecord ps f stats r = stats)
    ∧ (∀ (ps : List Product) (f : Item → Product → JSNum)
        (st : SellerStat) (item : Item),
        lookupLastSku ps item.sku = none → processItem ps f st item = st)
    ∧ (∀ (ps : List Product) (st : SellerStat) (item : Item) (product : Product),
        lookupLastSku ps item.sku = some product →
        (item.sale_price = JSVal.other ∨ item.discount = JSVal.other) →
        ∀ q : ℚ, item.quantity = JSVal.num q →
        (processItem ps defaultRevenue st item).revenue = jadd st.revenue (some 0)
        ∧ (processItem ps defaultRevenue st item).profit
            = jadd st.profit (some (0 - product.purchase_price * q))
        ∧ (processItem ps defaultRevenue st item).products_sold
            = psAdd st.products_sold item.sku item.quantity)
    ∧ (∀ (ss : List Seller) (ps : List Product) (rs : List PRecord)
        (f : Item → Product → JSNum) (g : ℤ → ℤ → SellerStat → JSNum),
        ss ≠ [] → ps ≠ [] → rs ≠ [] →
        ∃ rows, analyzeSalesData (some ⟨some ss, some ps, some rs⟩)
          (some ⟨some f, some g⟩) = .ok rows) := by
  refine ⟨?_, ?_, ?_, ?_⟩
  · intro ps f stats r h
    exact processRecord_eq_of_none ps f stats r h
  · intro ps f st item h
    simp [processItem, h]
  · intro ps st item product h hbad q hq
    refine ⟨?_, ?_, ?_⟩
    · rcases hbad with hb | hb <;>
        simp [processItem, h, defaultRevenue, calculateSimpleRevenue, hb, hq]
    · simp [processItem, h, rawRevenue, rawCost, hq, jsub, jadd]
      rcases hbad with hb | hb <;> simp [hb]
    · simp [processItem, h]
  · intro ss ps rs f g hss hps hrs
    exact ⟨_, analyzeSalesData_ok ss ps rs f g hss hps hrs⟩

/-- Witness for C9 (amended) at concrete inputs. -/
theorem c9_failsoft_amended_witness :
    processRecord [cexProd9] defaultRevenue [] ⟨"s1", [cexItem9]⟩ = []
    ∧ processItem [] defaultRevenue witStat cexItem9 = witStat
    ∧ (processItem [cexProd9] defaultRevenue witStat cexItem9).profit
        = jadd witStat.profit (some (0 - cexProd9.purchase_price * 1))
    ∧ ∃ rows, analyzeSalesData cexData9 defaultOpts = .ok rows := by
  refine ⟨?_, ?_, ?_, ?_⟩
  · exact c9_failsoft_amended.1 [cexProd9] defaultRevenue [] ⟨"s1", [cexItem9]⟩ rfl
  · exact c9_failsoft_amended.2.1 [] defaultRevenue witStat cexItem9 rfl
  · exact (c9_failsoft_amended.2.2.1 [cexProd9] witStat cexItem9 cexProd9
      (by simp [lookupLastSku, cexProd9, cexItem9]) (Or.inl rfl) 1 rfl).2.1
  · exact c9_failsoft_amended.2.2.2 oneSeller [cexProd9] [⟨"s1", [cexItem9]⟩]
      defaultRevenue calculateBonusByProfit (by simp [oneSeller]) (by simp) (by simp)

/-! ## Remaining helpers for C1, C5, C7 -/

theorem computeStats_map_id (ss : List Seller) (ps : List Product) (rs : List PRecord)
    (f : Item → Product → JSNum) :
    (computeStats ss ps rs f).map (fun s => s.id) = ss.map (fun s => s.id) := by
  unfold computeStats
  rw [foldl_processRecord_map_id]
  simp only [initStats, List.map_map]
  rfl

theorem computeStats_length (ss : List Seller) (ps : List Product) (rs : List PRecord)
    (f : Item → Product → JSNum) :
    (computeStats ss ps rs f).length = ss.length := by
  have := congrArg List.length (computeStats_map_id ss ps rs f)
  simpa using this

theorem sortStats_perm (stats : List SellerStat) : (sortStats stats).Perm stats := by
  unfold sortStats
  exact perm_insertionSortB _ _

theorem sortStats_length (stats : List SellerStat) :
    (sortStats stats).length = stats.length :=
  (sortStats_perm stats).length_eq

theorem calculateBonusByProfit_rank_zero (total : ℤ) (h : 0 < total) (s : SellerStat) :
    calculateBonusByProfit 0 total s = jmul s.profit (some (15/100)) := by
  unfold calculateBonusByProfit
  rw [if_neg (by omega)]
  norm_num

theorem calculateBonusByProfit_last_rank (total : ℤ) (h : 4 ≤ total) (s : SellerStat) :
    calculateBonusByProfit (total - 1) total s = jmul s.profit (some 0) := by
  unfold calculateBonusByProfit
  rw [if_neg (by omega)]
  have h0 : ¬(total - 1 = 0) := by omega
  have h1 : ¬(total - 1 = 1 ∨ total - 1 = 2) := by omega
  simp [h0, h1]

/-- The spec's worked example record list: one record for seller `s1`
with a single fully-numeric item. -/
def witRecords : List PRecord := [⟨"s1", [⟨"P1", .num 20, .num 2, .num 0⟩]⟩]

def witData : Option RawData := some ⟨some oneSeller, some [cexProd9], some witRecords⟩

/-! ## Claim C1 -/

/-- C1: for every shape-valid input (with numeric quantities, so that no
profit accumulator is NaN), `analyzeSalesData` returns the formatted,
sorted stats: one row per input seller (the multiset of output seller ids
equals the multiset of input seller ids, and the row count equals the
seller count), the sorted stats are a permutation of the accumulated
stats ordered by accumulated profit descending, and stats with equal
accumulated profit keep their original input order. -/
theorem c1_rows_per_seller_sorted (ss : List Seller) (ps : List Product)
    (rs : List PRecord) (f : Item → Product → JSNum) (g : ℤ → ℤ → SellerStat → JSNum)
    (hss : ss ≠ []) (hps : ps ≠ []) (hrs : rs ≠ []) (hq : numericQty rs = true) :
    analyzeSalesData (some ⟨some ss, some ps, some rs⟩) (some ⟨some f, some g⟩)
        = .ok (finalize g (sortStats (computeStats ss ps rs f)))
    ∧ (finalize g (sortStats (computeStats ss ps rs f))).length = ss.length
    ∧ ((finalize g (sortStats (computeStats ss ps rs f))).map (fun r => r.seller_id)).Perm
        (ss.map (fun s => s.id))
    ∧ (sortStats (computeStats ss ps rs f)).Perm (computeStats ss ps rs f)
    ∧ (∀ st ∈ sortStats (computeStats ss ps rs f), st.profit.isSome = true)
    ∧ (sortStats (computeStats ss ps rs f)).Pairwise
        (fun a b => b.profit.getD 0 ≤ a.profit.getD 0)
    ∧ (∀ a b : SellerStat, [a, b].Sublist (computeStats ss ps rs f) →
        a.profit = b.profit → [a, b].Sublist (sortStats (computeStats ss ps rs f))) := by
  have hgood := computeStats_good ss ps rs f hq
  have hprof : ∀ st ∈ computeStats ss ps rs f, st.profit.isSome = true :=
    fun st h => (hgood st h).1
  have hkey := sortStats_eq_key (computeStats ss ps rs f) hprof
  have hperm := sortStats_perm (computeStats ss ps rs f)
  refine ⟨analyzeSalesData_ok ss ps rs f g hss hps hrs, ?_, ?_, hperm, ?_, ?_, ?_⟩
  · rw [finalize_length, sortStats_length, computeStats_length]
  · rw [finalize_map_sid]
    have h1 := hperm.map (fun s : SellerStat => s.id)
    rw [computeStats_map_id] at h1
    exact h1
  · intro st hst
    exact hprof st (hperm.subset hst)
  · rw [hkey]
    exact pairwise_insertionSortB_key (fun st : SellerStat => st.profit.getD 0) _
  · intro a b hab heq
    rw [hkey]
    exact stable_insertionSortB_key (fun st : SellerStat => st.profit.getD 0) hab
      (le_of_eq (congrArg (fun p : JSNum => p.getD 0) heq.symm))

/-- Witness for C1 at the spec's worked example input. -/
theorem c1_rows_per_seller_sorted_witness :
    numericQty witRecords = true
    ∧ (finalize calculateBonusByProfit
        (sortStats (computeStats oneSeller [cexProd9] witRecords defaultRevenue))).length
      = oneSeller.length := by
  refine ⟨by decide, ?_⟩
  exact (c1_rows_per_seller_sorted oneSeller [cexProd9] witRecords defaultRevenue
    calculateBonusByProfit (by simp [oneSeller]) (by simp) (by simp [witRecords])
    (by decide)).2.1

/-! ## Claim C5 -/

/-- C5 counterexample: at the spec's own worked example (a single seller,
hence `total = 1 ≥ 1`, whose only rank is both rank 0 and the last rank),
the default bonus policy gives bonus `0.15 · 20 = 3`, not 0: the last-rank
seller's bonus is not 0 for every `total ≥ 1`. -/
theorem c5_last_rank_bonus_cex :
    reportBonuses (analyzeSalesData witData defaultOpts) = some [some 3]
    ∧ (some (3:ℚ) : JSNum) ≠ some 0 := by
  refine ⟨?_, ?_⟩
  · norm_num [reportBonuses, analyzeSalesData, finalize, finalizeAux, formatRow,
      sortStats, insertionSortB, insertOrd, jsLeB, computeStats, initStats,
      processRecord, processItem, bumpRecord, lastIdxOfIds, lookupLastSku, psAdd,
      jsvalNum, rawRevenue, rawCost, jadd, jsub, jmul, topProducts, jsToFixed2,
      toFixed2, roundHalfAway, calculateSimpleRevenue, calculateBonusByProfit,
      defaultRevenue, defaultOpts, witData, witRecords, oneSeller, cexProd9]
  · intro h
    rw [Option.some.injEq] at h
    norm_num at h

/-- C5 (amended): under the default bonus policy, for every shape-valid
input with numeric quantities the rank-0 row's bonus is the seller's
accumulated profit times 0.15 (rounded at output), for every seller count
`total ≥ 1`; the last-rank row's bonus is 0 only for `total ≥ 4` (for
`total ≤ 3` the last rank falls into the 0.15 or 0.10 branches first). -/
theorem c5_default_bonus_amended (ss : List Seller) (ps : List Product)
    (rs : List PRecord) (f : Item → Product → JSNum)
    (hss : ss ≠ []) (hps : ps ≠ []) (hrs : rs ≠ []) (hq : numericQty rs = true) :
    analyzeSalesData (some ⟨some ss, some ps, some rs⟩)
        (some ⟨some f, some calculateBonusByProfit⟩)
      = .ok (finalize calculateBonusByProfit (sortStats (computeStats ss ps rs f)))
    ∧ ((finalize calculateBonusByProfit (sortStats (computeStats ss ps rs f)))[0]?).map
          (fun r => r.bonus)
        = ((sortStats (computeStats ss ps rs f))[0]?).map
            (fun st => jsToFixed2 (jmul st.profit (some (15/100))))
    ∧ (4 ≤ ss.length →
        ((finalize calculateBonusByProfit (sortStats (computeStats ss ps rs f)))[ss.length - 1]?).map
            (fun r => r.bonus)
          = some (some 0)) := by
  have hgood := computeStats_good ss ps rs f hq
  have hlen : (sortStats (computeStats ss ps rs f)).length = ss.length := by
    rw [sortStats_length, computeStats_length]
  have hpos : 0 < ss.length := List.length_pos.mpr hss
  refine ⟨analyzeSalesData_ok ss ps rs f calculateBonusByProfit hss hps hrs, ?_, ?_⟩
  · rw [finalize_getElem?]
    cases h0 : (sortStats (computeStats ss ps rs f))[0]? with
    | none => simp
    | some st =>
      have hz := calculateBonusByProfit_rank_zero ((sortStats (computeStats ss ps rs f)).length : ℤ)
        (by rw [hlen]; exact_mod_cast hpos) st
      simp [formatRow, hz]
  · intro h4
    have hlt : ss.length - 1 < (sortStats (computeStats ss ps rs f)).length := by
      rw [hlen]; omega
    obtain ⟨st, hst⟩ : ∃ st, (sortStats (computeStats ss ps rs f))[ss.length - 1]? = some st := by
      rw [List.getElem?_eq_getElem hlt]
      exact ⟨_, rfl⟩
    rw [finalize_getElem?, hst, Option.map_some']
    have hmem : st ∈ sortStats (computeStats ss ps rs f) := by
      rw [← List.get?_eq_getElem?] at hst
      exact List.get?_mem hst
    have hmem' : st ∈ computeStats ss ps rs f :=
      (sortStats_perm (computeStats ss ps rs f)).subset hmem
    obtain ⟨p, hp⟩ := Option.isSome_iff_exists.mp (hgood st hmem').1
    have hcast : ((ss.length - 1 : ℕ) : ℤ)
        = ((sortStats (computeStats ss ps rs f)).length : ℤ) - 1 := by
      rw [hlen]; omega
    have hb := calculateBonusByProfit_last_rank
      ((sortStats (computeStats ss ps rs f)).length : ℤ) (by rw [hlen]; exact_mod_cast h4) st
    simp only [formatRow, hcast, hb, hp, jmul, jsToFixed2, Option.map_some']
    simp [toFixed2_zero]

/-- Witness for C5 (amended): a four-seller input where the last-rank
bonus is 0. -/
theorem c5_default_bonus_amended_witness :
    numericQty witRecords = true
    ∧ ((finalize calculateBonusByProfit
          (sortStats (computeStats
            [⟨"s1", "A", "B"⟩, ⟨"s2", "C", "D"⟩, ⟨"s3", "E", "F"⟩, ⟨"s4", "G", "H"⟩]
            [cexProd9] witRecords defaultRevenue)))[4 - 1]?).map (fun r => r.bonus)
      = some (some 0) := by
  refine ⟨by decide, ?_⟩
  have h := (c5_default_bonus_amended
    [⟨"s1", "A", "B"⟩, ⟨"s2", "C", "D"⟩, ⟨"s3", "E", "F"⟩, ⟨"s4", "G", "H"⟩]
    [cexProd9] witRecords defaultRevenue
    (by simp) (by simp) (by simp [witRecords]) (by decide)).2.2 (by norm_num)
  simpa using h

/-! ## Claim C7 -/

/-- C7: for every shape-valid input with numeric quantities, every output
row's `top_products` has at most 10 entries, is sorted by sold quantity
descending, and every entry is a `{sku, quantity}` pair taken from that
seller's accumulated `products_sold`. -/
theorem c7_top_products_shape (ss : List Seller) (ps : List Product)
    (rs : List PRecord) (f : Item → Product → JSNum) (g : ℤ → ℤ → SellerStat → JSNum)
    (hss : ss ≠ []) (hps : ps ≠ []) (hrs : rs ≠ []) (hq : numericQty rs = true) :
    analyzeSalesData (some ⟨some ss, some ps, some rs⟩) (some ⟨some f, some g⟩)
        = .ok (finalize g (sortStats (computeStats ss ps rs f)))
    ∧ ∀ (k : ℕ) (r : Row),
        (finalize g (sortStats (computeStats ss ps rs f)))[k]? = some r →
        r.top_products.length ≤ 10
        ∧ r.top_products.Pairwise (fun a b => b.quantity.getD 0 ≤ a.quantity.getD 0)
        ∧ ∃ st, (sortStats (computeStats ss ps rs f))[k]? = some st
            ∧ ∀ e ∈ r.top_products, (e.sku, e.quantity) ∈ st.products_sold := by
  have hgood := computeStats_good ss ps rs f hq
  refine ⟨analyzeSalesData_ok ss ps rs f g hss hps hrs, ?_⟩
  intro k r hr
  rw [finalize_getElem?] at hr
  cases hst : (sortStats (computeStats ss ps rs f))[k]? with
  | none => rw [hst] at hr; cases hr
  | some st =>
    rw [hst, Option.map_some'] at hr
    have hr' : r = formatRow g (sortStats (computeStats ss ps rs f)).length k st :=
      (Option.some.injEq _ _ ▸ hr).symm
    have hmem : st ∈ sortStats (computeStats ss ps rs f) := by
      rw [← List.get?_eq_getElem?] at hst
      exact List.get?_mem hst
    have hmem' : st ∈ computeStats ss ps rs f :=
      (sortStats_perm (computeStats ss ps rs f)).subset hmem
    have hsold : ∀ e ∈ st.products_sold, (e.2 : JSNum).isSome = true :=
      (hgood st hmem').2
    have htp : r.top_products = topProducts st.products_sold := by
      rw [hr']
      simp [formatRow]
    have hspec := topProducts_spec st.products_sold hsold
    refine ⟨?_, ?_, st, rfl, ?_⟩
    · rw [htp]; exact hspec.1
    · rw [htp]; exact hspec.2.1
    · rw [htp]; exact hspec.2.2

/-- Witness for C7 at the spec's worked example input. -/
theorem c7_top_products_shape_witness :
    numericQty witRecords = true
    ∧ analyzeSalesData witData defaultOpts
        = .ok (finalize calculateBonusByProfit
            (sortStats (computeStats oneSeller [cexProd9] witRecords defaultRevenue))) := by
  refine ⟨by decide, ?_⟩
  exact (c7_top_products_shape oneSeller [cexProd9] witRecords defaultRevenue
    calculateBonusByProfit (by simp [oneSeller]) (by simp) (by simp [witRecords])
    (by decide)).1
